import Mathlib

/-!
Verification of the catalog-resolution and cost-computation engine of the
`cogitator` army-list tool (`src/cogitator/database.py` and
`src/cogitator/writers/modelstable.py`).

The Python code is shallowly embedded: Python dicts (insertion ordered)
become association lists over `String`, Python `int` becomes `Int`,
fatal errors (uncaught exceptions, failed asserts, `sys.exit`) become
`Option.none`, and each `for` loop becomes a structurally recursive
function over the list of entries.
-/

namespace Cogitator

/-! ## Association lists modelling Python dicts

Python dicts preserve insertion order; assignment to an existing key
replaces the value in place, assignment to a fresh key appends.
-/

/-- Lookup of a key in an association list (Python `d[k]` / `d.get(k)`). -/
def alookup {α : Type} : List (String × α) → String → Option α
  | [], _ => none
  | (k', v) :: rest, k => if k' = k then some v else alookup rest k

/-- Python `k in d`. -/
def acontains {α : Type} (t : List (String × α)) (k : String) : Bool :=
  (alookup t k).isSome

/-- Python `d[k] = v`: replace in place if the key exists, else append. -/
def ains {α : Type} : List (String × α) → String → α → List (String × α)
  | [], k, v => [(k, v)]
  | (k', v') :: rest, k, v =>
    if k' = k then (k, v) :: rest else (k', v') :: ains rest k v

/-- In-place mutation of the record stored under a key
(Python `d[k].field = ...` style updates); identity if the key is absent. -/
def amodify {α : Type} : List (String × α) → String → (α → α) → List (String × α)
  | [], _, _ => []
  | (k', v) :: rest, k, f =>
    if k' = k then (k', f v) :: rest else (k', v) :: amodify rest k f

theorem alookup_ains_self {α : Type} (t : List (String × α)) (k : String) (v : α) :
    alookup (ains t k v) k = some v := by
  induction t with
  | nil => simp [ains, alookup]
  | cons p rest ih =>
    obtain ⟨k', v'⟩ := p
    by_cases h : k' = k <;> simp [ains, alookup, h, ih]

theorem alookup_ains_ne {α : Type} (t : List (String × α)) (k k' : String) (v : α)
    (h : k' ≠ k) : alookup (ains t k v) k' = alookup t k' := by
  induction t with
  | nil => simp [ains, alookup, Ne.symm h]
  | cons p rest ih =>
    obtain ⟨k0, v0⟩ := p
    by_cases h0 : k0 = k
    · subst h0
      simp [ains, alookup, Ne.symm h]
    · simp [ains, alookup, h0, ih]

theorem alookup_amodify_self {α : Type} (t : List (String × α)) (k : String) (f : α → α) :
    alookup (amodify t k f) k = (alookup t k).map f := by
  induction t with
  | nil => simp [amodify, alookup]
  | cons p rest ih =>
    obtain ⟨k', v⟩ := p
    by_cases h : k' = k <;> simp [amodify, alookup, h, ih]

theorem alookup_amodify_ne {α : Type} (t : List (String × α)) (k k' : String) (f : α → α)
    (h : k' ≠ k) : alookup (amodify t k f) k' = alookup t k' := by
  induction t with
  | nil => simp [amodify, alookup]
  | cons p rest ih =>
    obtain ⟨k0, v0⟩ := p
    by_cases h0 : k0 = k
    · subst h0
      simp [amodify, alookup, Ne.symm h]
    · simp [amodify, alookup, h0, ih]

theorem alookup_isSome_of_acontains {α : Type} (t : List (String × α)) (k : String)
    (h : acontains t k = true) : ∃ v, alookup t k = some v := by
  unfold acontains at h
  exact Option.isSome_iff_exists.mp h

/-! ## The two name patterns

`Weapon.parse` tests `re.match("(.*)\\[.*\\]", name)` and `Model.parse`
tests `re.match("(.*)\\(([0-9]+)W\\)", name)`.  `re.match` anchors at the
start only, and the leading `(.*)` is greedy, so the first pattern
succeeds iff the name has a `[` with some `]` after it, with group 1 the
prefix before the last such `[`; the second succeeds iff the name has a
`(` followed by a digit run, `W` and `)`, group 1 the prefix before the
last such `(` and group 2 that digit run.  (A `.` in these patterns does
not match a newline; names are modelled as newline-free.)
-/

/-- Python `str.strip()`: drop leading and trailing whitespace. -/
def pyStrip (s : String) : String :=
  String.mk
    (((s.toList.dropWhile Char.isWhitespace).reverse.dropWhile Char.isWhitespace).reverse)

/-- Python `str.split(sep)` for a one-character separator, on the
character list: splitting the empty string yields one empty field. -/
def splitOnChar (c : Char) : List Char → List (List Char)
  | [] => [[]]
  | x :: rest =>
    match splitOnChar c rest with
    | h :: t => if x = c then [] :: h :: t else (x :: h) :: t
    | [] => [[x]]

/-- `row["Abilities"].split("|")` with each entry stripped. -/
def splitAbilities (s : String) : List String :=
  ((splitOnChar '|' s.toList).map String.mk).map pyStrip

/-- Python `", ".join(l)`. -/
def joinSep (sep : String) : List String → String
  | [] => ""
  | [x] => x
  | x :: rest => x ++ sep ++ joinSep sep rest

/-- Value of a digit run, most significant first. -/
def digitsToNat (ds : List Char) : Nat :=
  ds.foldl (fun n c => 10 * n + (c.toNat - 48)) 0

/-- Python `int(s)` for an optionally-negated base-10 numeral (the
whitespace, `+` sign and underscore forms `int` also accepts never occur
in these tables); non-numeric input raises, hence `none`. -/
def pyToInt (s : String) : Option Int :=
  match s.toList with
  | '-' :: d :: ds =>
    if (d :: ds).all Char.isDigit then some (-(digitsToNat (d :: ds) : Int)) else none
  | d :: ds =>
    if (d :: ds).all Char.isDigit then some ((digitsToNat (d :: ds) : Int)) else none
  | [] => none

/-- Group 1 of `re.match("(.*)\\[.*\\]", s)`: the prefix before the last
`[` that has a `]` somewhere after it, or `none` when the pattern fails. -/
def weaponSplit : List Char → Option (List Char)
  | [] => none
  | c :: rest =>
    match weaponSplit rest with
    | some b => some (c :: b)
    | none => if c = '[' && rest.contains ']' then some [] else none

/-- Match of `([0-9]+)W\\)` against a prefix of the given characters
(the characters after a candidate `(`). -/
def variantSuffix (rest : List Char) : Option Nat :=
  let ds := rest.takeWhile Char.isDigit
  if ds.isEmpty then none
  else
    match rest.dropWhile Char.isDigit with
    | 'W' :: ')' :: _ => some (digitsToNat ds)
    | _ => none

/-- Groups of `re.match("(.*)\\(([0-9]+)W\\)", s)`: the prefix before the
last `(` whose suffix matches `([0-9]+)W\\)`, together with the matched
wound threshold; `none` when the pattern fails. -/
def modelSplit : List Char → Option (List Char × Nat)
  | [] => none
  | c :: rest =>
    match modelSplit rest with
    | some (b, n) => some (c :: b, n)
    | none =>
      if c = '(' then (variantSuffix rest).map (fun n => (([] : List Char), n))
      else none

/-! ## Catalog records and their row parsers

`Model` and `Weapon` are recursive (damage variants nest models, firing
modes nest weapons), so they are inductives with explicit projections.
A row is modelled as a structure carrying the columns the parser reads,
all as strings (`csv.DictReader` yields strings).  `int(...)` on a bad
field, a failed assert, an uncaught `KeyError` and `sys.exit` are all
modelled as `Option.none`.
-/

/-- A model record (`Model` in `database.py`). -/
inductive Model where
  | mk (name : String) (cost : Int) (stats : List (String × String))
      (abilities : List String) (damage_variants : List (Nat × Model))
      (includes_wargear : Bool)

def Model.name : Model → String
  | .mk n _ _ _ _ _ => n

def Model.cost : Model → Int
  | .mk _ c _ _ _ _ => c

def Model.stats : Model → List (String × String)
  | .mk _ _ s _ _ _ => s

def Model.abilities : Model → List String
  | .mk _ _ _ a _ _ => a

def Model.damage_variants : Model → List (Nat × Model)
  | .mk _ _ _ _ d _ => d

def Model.includes_wargear : Model → Bool
  | .mk _ _ _ _ _ i => i

/-- `table[base].damage_variants.append((threshold, variant))`. -/
def Model.appendVariant (m : Model) (threshold : Nat) (v : Model) : Model :=
  match m with
  | .mk n c s a d i => .mk n c s a (d ++ [(threshold, v)]) i

/-- A weapon record (`Weapon` in `database.py`). -/
inductive Weapon where
  | mk (name : String) (cost : Int) (stats : List (String × String))
      (modes : List Weapon) (abilities : List String)

def Weapon.name : Weapon → String
  | .mk n _ _ _ _ => n

def Weapon.cost : Weapon → Int
  | .mk _ c _ _ _ => c

def Weapon.stats : Weapon → List (String × String)
  | .mk _ _ s _ _ => s

def Weapon.modes : Weapon → List Weapon
  | .mk _ _ _ m _ => m

def Weapon.abilities : Weapon → List String
  | .mk _ _ _ _ a => a

/-- `Weapon.__init__(name, cost)`: the placeholder base weapon, whose
stats map holds only the name and (stringified) cost. -/
def Weapon.init (name : String) (cost : Int) : Weapon :=
  .mk name cost [("Name", name), ("Cost", toString cost)] [] []

/-- `table[base].modes.append(self)`. -/
def Weapon.appendMode (w : Weapon) (mode : Weapon) : Weapon :=
  match w with
  | .mk n c s m a => .mk n c s (m ++ [mode]) a

/-- `Weapon.get_modes`: the mode list if non-empty, else the record itself. -/
def Weapon.get_modes (w : Weapon) : List Weapon :=
  if w.modes.length > 0 then w.modes else [w]

/-- A wargear record (`Wargear` in `database.py`). -/
structure Wargear where
  name : String
  cost : Int
  abilities : List String

/-- A formation record (`Formation` in `database.py`); only the fields
the resolution engine reads are kept. -/
structure Formation where
  name : String
  cp : Int

/-- The columns `Model.parse` reads. -/
structure ModelRow where
  Name : String
  Cost : String
  M : String
  WS : String
  BS : String
  S : String
  T : String
  W : String
  A : String
  Ld : String
  Sv : String
  Abilities : String
  IncludesWargear : String

/-- The columns `Weapon.parse` reads. -/
structure WeaponRow where
  Name : String
  Cost : String
  Range : String
  «Type» : String
  S : String
  AP : String
  D : String
  Abilities : String

/-- The columns `Wargear.parse` reads. -/
structure WargearRow where
  Name : String
  Cost : String
  Abilities : String

/-- The wargear-inclusion flag: the column must be non-empty and parse to
a non-zero integer (`len(iw) != 0 and int(iw) != 0`); a non-empty
non-integer value is a fatal parse error. -/
def modelIncludesWargear (s : String) : Option Bool :=
  if s.length = 0 then some false
  else (pyToInt s).map (fun n => n != 0)

/-- The model record built from a row (name, cost, ordered stats map,
abilities, empty variant list, wargear flag). -/
def Model.ofRow (row : ModelRow) (cost : Int) (iw : Bool) : Model :=
  .mk row.Name cost
    [("Name", row.Name), ("Cost", row.Cost), ("M", row.M), ("WS", row.WS),
     ("BS", row.BS), ("S", row.S), ("T", row.T), ("W", row.W), ("A", row.A),
     ("Ld", row.Ld), ("Sv", row.Sv)]
    (splitAbilities row.Abilities) [] iw

/-- `Model.parse`: a name matching `<base> (<N>W)` appends a damage
variant to the base model already in the table (a missing base is an
uncaught `KeyError`, hence `none`); any other name is inserted under
itself. -/
def Model.parse (row : ModelRow) (table : List (String × Model)) :
    Option (List (String × Model)) :=
  match pyToInt row.Cost with
  | none => none
  | some cost =>
    match modelIncludesWargear row.IncludesWargear with
    | none => none
    | some iw =>
      match modelSplit row.Name.toList with
      | some (b, threshold) =>
        if acontains table (pyStrip (String.mk b)) then
          some (amodify table (pyStrip (String.mk b))
            (fun m => m.appendVariant threshold (Model.ofRow row cost iw)))
        else none
      | none => some (ains table row.Name (Model.ofRow row cost iw))

/-- The weapon record built from a row.  The ability list drops its
first empty entry (`if "" in abilities: abilities.remove("")`), and the
stats map gains a derived "Abilities" display string (`", "` join, or
`"-"` when empty). -/
def Weapon.ofRow (row : WeaponRow) (cost : Int) : Weapon :=
  let abilities0 := splitAbilities row.Abilities
  let abilities := if abilities0.contains "" then abilities0.erase "" else abilities0
  let abilitiesStr0 := joinSep ", " abilities
  let abilitiesStr := if abilitiesStr0.length = 0 then "-" else abilitiesStr0
  .mk row.Name cost
    [("Name", row.Name), ("Cost", row.Cost), ("Range", row.Range),
     ("Type", row.«Type»), ("S", row.S), ("AP", row.AP), ("D", row.D),
     ("Abilities", abilitiesStr)]
    [] abilities

/-- `Weapon.parse`: a name matching `<base> [<mode>]` is appended to the
mode list of the entry under the trimmed base, a placeholder base being
created first (with this row's cost) when that key is absent; any other
name is inserted under itself. -/
def Weapon.parse (row : WeaponRow) (table : List (String × Weapon)) :
    Option (List (String × Weapon)) :=
  match pyToInt row.Cost with
  | none => none
  | some cost =>
    match weaponSplit row.Name.toList with
    | some b =>
      some (amodify
        (if acontains table (pyStrip (String.mk b)) then table
         else ains table (pyStrip (String.mk b))
           (Weapon.init (pyStrip (String.mk b)) cost))
        (pyStrip (String.mk b))
        (fun w => w.appendMode (Weapon.ofRow row cost)))
    | none => some (ains table row.Name (Weapon.ofRow row cost))

/-- The wargear record built from a row. -/
def Wargear.ofRow (row : WargearRow) (cost : Int) : Wargear :=
  { name := row.Name, cost := cost, abilities := splitAbilities row.Abilities }

/-- `Wargear.parse` (via `BasicRecord.parse`): insert under the name. -/
def Wargear.parse (row : WargearRow) (table : List (String × Wargear)) :
    Option (List (String × Wargear)) :=
  match pyToInt row.Cost with
  | none => none
  | some cost => some (ains table row.Name (Wargear.ofRow row cost))

/-- `read_table`'s row loop for the weapons table. -/
def buildWeaponsFrom (table : List (String × Weapon)) :
    List WeaponRow → Option (List (String × Weapon))
  | [] => some table
  | row :: rest =>
    match Weapon.parse row table with
    | some t => buildWeaponsFrom t rest
    | none => none

/-- The weapons table read from a list of rows. -/
def buildWeapons (rows : List WeaponRow) : Option (List (String × Weapon)) :=
  buildWeaponsFrom [] rows

/-- `read_table`'s row loop for the models table. -/
def buildModelsFrom (table : List (String × Model)) :
    List ModelRow → Option (List (String × Model))
  | [] => some table
  | row :: rest =>
    match Model.parse row table with
    | some t => buildModelsFrom t rest
    | none => none

/-- The models table read from a list of rows. -/
def buildModels (rows : List ModelRow) : Option (List (String × Model)) :=
  buildModelsFrom [] rows

/-! ## Database and roster

`Database.__init__` reads the per-kind tables and merges weapons, models
and wargear into one `__costs` dict (in that update order, so a name in
several tables resolves wargear first, then models, then weapons).  Only
the tables the resolution functions read are modelled.  A squad is its
item-quantity mapping plus the Kill-Team-only fields the engine reads;
the unused roster fields (name, slot, notes, portrait) are omitted.
-/

structure Database where
  game : String
  weapons : List (String × Weapon)
  wargear : List (String × Wargear)
  models : List (String × Model)
  formations : List (String × Formation)

structure Squad where
  items : List (String × Int)
  specialist : Option String
  experience : Option Int

structure Detachment where
  «Type» : String
  units : List Squad

structure Army where
  detachments : List Detachment

/-- An entry of the merged `__costs` dict. -/
inductive Item where
  | weapon : Weapon → Item
  | model : Model → Item
  | wargear : Wargear → Item

def Item.cost : Item → Int
  | .weapon w => w.cost
  | .model m => m.cost
  | .wargear g => g.cost

def Item.name : Item → String
  | .weapon w => w.name
  | .model m => m.name
  | .wargear g => g.name

def Item.abilities : Item → List String
  | .weapon w => w.abilities
  | .model m => m.abilities
  | .wargear g => g.abilities

/-- `record.includes_wargear` is only an attribute of models; reading it
on a weapon or wargear record is a fatal `AttributeError`. -/
def Item.includes_wargear : Item → Option Bool
  | .model m => some m.includes_wargear
  | _ => none

def Database.is_kill_team (db : Database) : Bool :=
  db.game == "Kill Team"

/-- `Database.lookup_item`: lookup in the merged costs dict, built by
updating with weapons, then models, then wargear (later updates win).
A missing name is `sys.exit(1)`, hence `none`. -/
def Database.lookup_item (db : Database) (item : String) : Option Item :=
  match alookup db.wargear item with
  | some g => some (.wargear g)
  | none =>
    match alookup db.models item with
    | some m => some (.model m)
    | none => (alookup db.weapons item).map .weapon

/-- `Database.lookup_formation` (`None` on a miss; every caller then
reads `.cp`, so a miss is fatal there). -/
def Database.lookup_formation (db : Database) (f : String) : Option Formation :=
  alookup db.formations f

/-! ## Cost computation -/

/-- The loop of `squad_models_cost`: items in the models table contribute
catalog cost times quantity. -/
def Database.models_cost_loop (db : Database) :
    List (String × Int) → Int → Option Int
  | [], total => some total
  | p :: rest, total =>
    if acontains db.models p.1 then
      match db.lookup_item p.1 with
      | some it => db.models_cost_loop rest (total + it.cost * p.2)
      | none => none
    else db.models_cost_loop rest total

def Database.squad_models_cost (db : Database) (s : Squad) : Option Int :=
  db.models_cost_loop s.items 0

/-- The loop of `squad_wargear_included`: a model item with the flag set
turns the accumulator on; one without the flag asserts that the
accumulator is still off (`assert not include_wargear`), a failed assert
being fatal. -/
def Database.wargear_included_loop (db : Database) :
    List (String × Int) → Bool → Option Bool
  | [], inc => some inc
  | p :: rest, inc =>
    if acontains db.models p.1 then
      match db.lookup_item p.1 with
      | some it =>
        match it.includes_wargear with
        | some true => db.wargear_included_loop rest true
        | some false => if inc then none else db.wargear_included_loop rest inc
        | none => none
      | none => none
    else db.wargear_included_loop rest inc

def Database.squad_wargear_included (db : Database) (s : Squad) : Option Bool :=
  db.wargear_included_loop s.items false

/-- The loop of `squad_wargear_cost`: items in the weapons or wargear
table contribute catalog cost times quantity. -/
def Database.wargear_cost_loop (db : Database) :
    List (String × Int) → Int → Option Int
  | [], total => some total
  | p :: rest, total =>
    if acontains db.weapons p.1 || acontains db.wargear p.1 then
      match db.lookup_item p.1 with
      | some it => db.wargear_cost_loop rest (total + it.cost * p.2)
      | none => none
    else db.wargear_cost_loop rest total

/-- `squad_wargear_cost`: zero when the squad's models include their
wargear, else the summed loop. -/
def Database.squad_wargear_cost (db : Database) (s : Squad) : Option Int :=
  match db.squad_wargear_included s with
  | none => none
  | some true => some 0
  | some false => db.wargear_cost_loop s.items 0

/-- `squad_points_cost = squad_models_cost + squad_wargear_cost`
(models first, as evaluated in the source). -/
def Database.squad_points_cost (db : Database) (s : Squad) : Option Int :=
  match db.squad_models_cost s, db.squad_wargear_cost s with
  | some m, some w => some (m + w)
  | _, _ => none

/-- The loop of `get_squad_items`: the `if`/`elif` chain classifying each
item by membership in the weapons, models and wargear tables (in that
order), deduplicating and counting model quantities.  An item in none of
the tables falls off the end of the chain. -/
def Database.get_squad_items_loop (db : Database) :
    List (String × Int) → List String → List String → List String → Int →
    List String × List String × List String × Int
  | [], weapons, models, wargear, num => (weapons, models, wargear, num)
  | p :: rest, weapons, models, wargear, num =>
    if acontains db.weapons p.1 && !(weapons.contains p.1) then
      db.get_squad_items_loop rest (weapons ++ [p.1]) models wargear num
    else if acontains db.models p.1 && !(models.contains p.1) then
      db.get_squad_items_loop rest weapons (models ++ [p.1]) wargear (num + p.2)
    else if acontains db.wargear p.1 && !(wargear.contains p.1) then
      db.get_squad_items_loop rest weapons models (wargear ++ [p.1]) num
    else db.get_squad_items_loop rest weapons models wargear num

def Database.get_squad_items (db : Database) (s : Squad) :
    List String × List String × List String × Int :=
  db.get_squad_items_loop s.items [] [] [] 0

/-- The loop of `army_cp_total`, threading the running total through each
detachment's formation (a missing formation makes `formation.cp` a fatal
`AttributeError` on `None`). -/
def Database.cp_loop (db : Database) : List Detachment → Int → Option Int
  | [], total => some total
  | d :: rest, total =>
    match db.lookup_formation d.«Type» with
    | some f => db.cp_loop rest (total + f.cp)
    | none => none

/-- `army_cp_total`: a base of 3 ("assume battle-forged") plus each
detachment's formation command points. -/
def Database.army_cp_total (db : Database) (army : Army) : Option Int :=
  db.cp_loop army.detachments 3

/-! ## Ability aggregation and buffs -/

/-- `get_squad_level`: experience breakpoints 12/7/3. -/
def Database.get_squad_level (_db : Database) (s : Squad) : Int :=
  let xp := s.experience.getD 0
  if xp ≥ 12 then 3
  else if xp ≥ 7 then 2
  else if xp ≥ 3 then 1
  else 0

/-- The body of the dedup loop: append an ability unless already seen. -/
def abilityStep (acc : List String) (a : String) : List String :=
  if acc.contains a then acc else acc ++ [a]

/-- The item loop of `list_squad_abilities`: look each item up (fatal on
a miss) and fold its abilities through the dedup step. -/
def Database.abilities_loop (db : Database) :
    List (String × Int) → List String → Option (List String)
  | [], acc => some acc
  | p :: rest, acc =>
    match db.lookup_item p.1 with
    | some it => db.abilities_loop rest (it.abilities.foldl abilityStep acc)
    | none => none

/-- `list_squad_abilities`: the deduplicated item abilities, and for a
Kill Team squad with a specialist, one appended string per level from 1
to the squad's level. -/
def Database.list_squad_abilities (db : Database) (s : Squad) :
    Option (List String) :=
  match db.abilities_loop s.items [] with
  | none => none
  | some abilities =>
    match s.specialist with
    | some specialist =>
      if db.is_kill_team then
        some (abilities ++ (List.range (db.get_squad_level s).toNat).map
          (fun i => specialist ++ " (" ++ toString (i + 1) ++ ")"))
      else some abilities
    | none => some abilities

/-- `lookup_buff`: with no squad, no buff; under Kill Team the squad's
abilities are aggregated (fatal on an unknown item), and a Range stat on
a Frag or Krak Grenade with "Auxiliary Grenade Launcher" aggregated
returns the override 30; every fall-through returns no buff.  The outer
`Option` is the fatal-error channel, the inner one the buff itself. -/
def Database.lookup_buff (db : Database) (squad : Option Squad)
    (stat_name : String) (item : Weapon) : Option (Option Int) :=
  match squad with
  | none => some none
  | some s =>
    if db.is_kill_team then
      match db.list_squad_abilities s with
      | none => none
      | some abilities =>
        if stat_name == "Range"
            && (item.name == "Frag Grenade" || item.name == "Krak Grenade") then
          if abilities.contains "Auxiliary Grenade Launcher" then some (some 30)
          else some none
        else some none
    else some none

/-! ## The models table writer (`writers/modelstable.py`)

Embedded per item name: the rows the writer emits for one model and its
damage-variant chain, each row an assoc list column-id to cell text.
(`Table.set_cell` on an absent column is a no-op, so which of these
cells are displayed depends on the squad/ruleset column set; the cell
texts themselves are computed exactly as in the source loop.)
-/

def modelstats : List String :=
  ["Name", "Cost", "M", "WS", "BS", "S", "T", "W", "A", "Ld", "Sv"]

/-- One stat cell of a variant row: WS/BS/Sv gain a `+` suffix, M gains
an inch mark, and the cost of a non-first row is suppressed.  A stat
missing from the record's stats map is a fatal `KeyError`. -/
def model_stat_cell (variant : Model) (first : Bool) (stat : String) :
    Option (String × String) :=
  match alookup variant.stats stat with
  | none => none
  | some v =>
    let value :=
      if stat = "WS" || stat = "BS" || stat = "Sv" then v ++ "+"
      else if stat = "M" then v ++ "\x27\x27"
      else if stat = "Cost" && !first then "-"
      else v
    some (stat, value)

def model_stat_cells (variant : Model) (first : Bool) :
    List String → Option (List (String × String))
  | [] => some []
  | stat :: rest =>
    match model_stat_cell variant first stat, model_stat_cells variant first rest with
    | some c, some cs => some (c :: cs)
    | _, _ => none

/-- The Qty cell: `"-" if (first or squad is None) else squad["Items"][name]`. -/
def qty_cell (squad : Option Squad) (first : Bool) (name : String) :
    Option String :=
  match squad with
  | none => some "-"
  | some s =>
    if first then some "-"
    else (alookup s.items name).map (fun q => toString q)

/-- The variant loop of `write_models_table`: one row per variant, the
`first` flag cleared after the head of the chain. -/
def model_variant_rows (squad : Option Squad) (name : String) :
    List Model → Bool → Option (List (List (String × String)))
  | [], _ => some []
  | v :: rest, first =>
    match model_stat_cells v first modelstats, qty_cell squad first name,
          model_variant_rows squad name rest false with
    | some cells, some q, some rows => some ((cells ++ [("Qty", q)]) :: rows)
    | _, _, _ => none

/-- The rows `write_models_table` emits for one item name: the looked-up
model followed by its damage variants, the head row marked first. -/
def Database.write_models_rows (db : Database) (squad : Option Squad)
    (name : String) : Option (List (List (String × String))) :=
  match db.lookup_item name with
  | some (.model m) =>
    model_variant_rows squad name ([m] ++ m.damage_variants.map Prod.snd) true
  | _ => none

/-! ## Concrete catalog data used by the witnesses -/

def marineRow : ModelRow :=
  { Name := "Tactical Marine", Cost := "13", M := "6", WS := "3", BS := "3",
    S := "4", T := "4", W := "1", A := "1", Ld := "7", Sv := "3",
    Abilities := "And They Shall Know No Fear", IncludesWargear := "" }

def robotRow : ModelRow :=
  { Name := "Robot", Cost := "80", M := "8", WS := "4", BS := "4",
    S := "6", T := "7", W := "10", A := "3", Ld := "8", Sv := "2",
    Abilities := "", IncludesWargear := "" }

def robot5WRow : ModelRow :=
  { Name := "Robot (5W)", Cost := "40", M := "6", WS := "5", BS := "5",
    S := "6", T := "7", W := "5", A := "2", Ld := "8", Sv := "2",
    Abilities := "", IncludesWargear := "" }

def gruntARow : ModelRow :=
  { Name := "Grunt A", Cost := "10", M := "6", WS := "4", BS := "4",
    S := "3", T := "3", W := "1", A := "1", Ld := "6", Sv := "5",
    Abilities := "", IncludesWargear := "" }

def gruntBRow : ModelRow :=
  { Name := "Grunt B", Cost := "20", M := "6", WS := "4", BS := "4",
    S := "3", T := "3", W := "1", A := "1", Ld := "6", Sv := "5",
    Abilities := "", IncludesWargear := "1" }

def vetRow : ModelRow :=
  { Name := "Vet", Cost := "10", M := "6", WS := "3", BS := "3",
    S := "3", T := "3", W := "1", A := "1", Ld := "7", Sv := "4",
    Abilities := "Auxiliary Grenade Launcher", IncludesWargear := "" }

def flamerRow : WeaponRow :=
  { Name := "Flamer", Cost := "9", Range := "8", «Type» := "Assault D6",
    S := "4", AP := "0", D := "1", Abilities := "" }

def gunRow : WeaponRow :=
  { Name := "Gun", Cost := "3", Range := "12", «Type» := "Assault 1",
    S := "4", AP := "0", D := "1", Abilities := "" }

def gunRapidRow : WeaponRow :=
  { Name := "Gun [Rapid]", Cost := "5", Range := "12", «Type» := "Rapid Fire 2",
    S := "4", AP := "0", D := "1", Abilities := "" }

def fragRow : WeaponRow :=
  { Name := "Frag Grenade", Cost := "0", Range := "6", «Type» := "Grenade D6",
    S := "3", AP := "0", D := "1", Abilities := "" }

def fragW : Weapon := Weapon.ofRow fragRow 0

/-- Standard-ruleset database for the mixed wargear-inclusion squads. -/
def db1 : Database :=
  { game := "Warhammer 40,000", weapons := [], wargear := []
  , models := [("Grunt A", Model.ofRow gruntARow 10 false),
               ("Grunt B", Model.ofRow gruntBRow 20 true)]
  , formations := [] }

/-- A squad whose non-including model precedes the including one. -/
def mixFT : Squad :=
  { items := [("Grunt A", 1), ("Grunt B", 1)], specialist := none, experience := none }

/-- The same squad with the two models in the opposite order. -/
def mixTF : Squad :=
  { items := [("Grunt B", 1), ("Grunt A", 1)], specialist := none, experience := none }

/-- Standard-ruleset database with a marine and a flamer. -/
def db2 : Database :=
  { game := "Warhammer 40,000"
  , weapons := [("Flamer", Weapon.ofRow flamerRow 9)]
  , wargear := []
  , models := [("Tactical Marine", Model.ofRow marineRow 13 false)]
  , formations := [] }

def tacSquad : Squad :=
  { items := [("Tactical Marine", 10), ("Flamer", 1)]
  , specialist := none, experience := none }

/-- Database whose single model includes its wargear. -/
def dbIW : Database :=
  { game := "Warhammer 40,000"
  , weapons := [("Flamer", Weapon.ofRow flamerRow 9)]
  , wargear := []
  , models := [("Grunt B", Model.ofRow gruntBRow 20 true)]
  , formations := [] }

def iwSquad : Squad :=
  { items := [("Grunt B", 1), ("Flamer", 1)], specialist := none, experience := none }

/-- The models table after reading just the Robot base row. -/
def robotTable : List (String × Model) := [("Robot", Model.ofRow robotRow 80 false)]

/-- Standard-ruleset database with a squad-unknown item around. -/
def db5 : Database :=
  { game := "Warhammer 40,000", weapons := [], wargear := []
  , models := [("Grunt A", Model.ofRow gruntARow 10 false)]
  , formations := [] }

def mysterySquad : Squad :=
  { items := [("Mystery", 1)], specialist := none, experience := none }

/-- Standard-ruleset database whose Robot model carries a damage variant. -/
def db6 : Database :=
  { game := "Warhammer 40,000", weapons := [], wargear := []
  , models := [("Robot",
      (Model.ofRow robotRow 80 false).appendVariant 5 (Model.ofRow robot5WRow 40 false))]
  , formations := [] }

def robotSquad : Squad :=
  { items := [("Robot", 2)], specialist := none, experience := none }

/-- Kill Team database whose single model grants the grenade-launcher
ability. -/
def db7 : Database :=
  { game := "Kill Team", weapons := [("Frag Grenade", fragW)], wargear := []
  , models := [("Vet", Model.ofRow vetRow 10 false)]
  , formations := [] }

def vetSquad : Squad :=
  { items := [("Vet", 1)], specialist := none, experience := none }

def vetSpecialistSquad : Squad :=
  { items := [("Vet", 1)], specialist := some "Veteran", experience := some 8 }

/-- Database with two formations for the command-point witness. -/
def db9 : Database :=
  { game := "Warhammer 40,000", weapons := [], wargear := [], models := []
  , formations := [("Patrol", { name := "Patrol", cp := 0 }),
                   ("Battalion", { name := "Battalion", cp := 5 })] }

def army9 : Army :=
  { detachments := [{ «Type» := "Battalion", units := [] },
                    { «Type» := "Patrol", units := [] }] }

def emptyAbilityRow : ModelRow :=
  { Name := "Grunt", Cost := "5", M := "6", WS := "4", BS := "4",
    S := "3", T := "3", W := "1", A := "1", Ld := "6", Sv := "5",
    Abilities := "", IncludesWargear := "" }

def emptyGearRow : WargearRow :=
  { Name := "Trinket", Cost := "2", Abilities := "" }

def db10 : Database :=
  { game := "Warhammer 40,000", weapons := [], wargear := []
  , models := [("Grunt", Model.ofRow emptyAbilityRow 5 false)]
  , formations := [] }

def gruntSquad : Squad :=
  { items := [("Grunt", 1)], specialist := none, experience := none }

example : db1.squad_wargear_included mixFT = some true := by rfl
example : db1.squad_wargear_included mixTF = none := by rfl
example : db1.squad_points_cost mixFT = some 30 := by rfl
example : db2.squad_models_cost tacSquad = some 130 := by rfl
example : db2.squad_wargear_cost tacSquad = some 9 := by rfl
example : db2.squad_points_cost tacSquad = some 139 := by rfl
example : weaponSplit "Gun [Rapid]".toList = some "Gun ".toList := by rfl
example : modelSplit "Robot (5W)".toList = some ("Robot ".toList, 5) := by rfl
example : pyStrip (String.mk "Robot ".toList) = "Robot" := by rfl
example : Model.parse robot5WRow robotTable
    = some [("Robot", (Model.ofRow robotRow 80 false).appendVariant 5
        (Model.ofRow robot5WRow 40 false))] := by rfl
example : db7.list_squad_abilities vetSquad = some ["Auxiliary Grenade Launcher"] := by rfl
example : db7.list_squad_abilities vetSpecialistSquad
    = some ["Auxiliary Grenade Launcher", "Veteran (1)", "Veteran (2)"] := by rfl
example : db7.lookup_buff (some vetSquad) "Range" fragW = some (some 30) := by rfl
example : db9.army_cp_total army9 = some 8 := by rfl
example : (Model.ofRow emptyAbilityRow 5 false).abilities = [""] := by rfl
example : db10.list_squad_abilities gruntSquad = some [""] := by rfl
example : (db6.write_models_rows (some robotSquad) "Robot").map
      (fun rows => rows.map (fun r => (alookup r "Cost", alookup r "Qty")))
    = some [(some "80", some "-"), (some "-", some "2")] := by rfl
example : buildWeapons [gunRow, gunRapidRow]
    = some [("Gun", (Weapon.ofRow gunRow 3).appendMode (Weapon.ofRow gunRapidRow 5))] := by rfl
example : db5.get_squad_items mysterySquad = ([], [], [], 0) := by rfl
example : db5.squad_points_cost mysterySquad = some 0 := by rfl
example : db5.list_squad_abilities mysterySquad = none := by rfl

def robot3WRow : ModelRow :=
  { Name := "Robot (3W)", Cost := "40", M := "4", WS := "6", BS := "6",
    S := "6", T := "7", W := "3", A := "1", Ld := "8", Sv := "2",
    Abilities := "", IncludesWargear := "" }

example : (buildModels [robotRow, robot3WRow, robot5WRow]).bind
      (fun t => (alookup t "Robot").map
        (fun m => m.damage_variants.map Prod.fst))
    = some [3, 5] := by rfl
example : (buildModels [robotRow, robot3WRow, robot5WRow]).bind
      (fun t => alookup t "Robot (3W)") = none := by rfl

/-! ## Supporting lemmas -/

/-- `lookup_item` succeeds on any name present in at least one of the
weapons, models or wargear tables (the three tables merged into the
costs dict). -/
theorem lookup_item_isSome (db : Database) (i : String)
    (h : (acontains db.weapons i || acontains db.models i || acontains db.wargear i) = true) :
    ∃ it, db.lookup_item i = some it := by
  unfold Database.lookup_item
  unfold acontains at h
  cases hg : alookup db.wargear i with
  | some g => exact ⟨.wargear g, rfl⟩
  | none =>
    cases hm : alookup db.models i with
    | some m => simp [hm]
    | none =>
      cases hw : alookup db.weapons i with
      | some w => simp [hm, hw]
      | none => simp [hg, hm, hw] at h

/-- `lookup_item` fails only on names absent from all three tables. -/
theorem acontains_false_of_lookup_item_none (db : Database) (i : String)
    (h : db.lookup_item i = none) :
    acontains db.weapons i = false ∧ acontains db.models i = false
      ∧ acontains db.wargear i = false := by
  unfold Database.lookup_item at h
  cases hg : alookup db.wargear i with
  | some g => simp [hg] at h
  | none =>
    cases hm : alookup db.models i with
    | some m => simp [hg, hm] at h
    | none =>
      cases hw : alookup db.weapons i with
      | some w => simp [hg, hm, hw] at h
      | none => simp [acontains, hg, hm, hw]

/-! ## C1 -/

/-- C1: the claim says a squad mixing a wargear-including model with a
non-including one must fail with the consistency assert regardless of
the item order.  The code only fires the assert when the including model
is seen first: with the non-including model first it silently succeeds
and returns a points cost, contradicting the claim (and the code's own
comment that it cannot cope with such squads). -/
theorem squad_wargear_included_order_dependent :
    db1.squad_wargear_included mixFT = some true
  ∧ db1.squad_points_cost mixFT = some 30
  ∧ db1.squad_wargear_included mixTF = none
  ∧ db1.squad_points_cost mixTF = none := by
  exact ⟨rfl, rfl, rfl, rfl⟩

/-! ## C2 -/

/-- The catalog cost a squad item contributes (the merged costs dict). -/
def Database.item_cost (db : Database) (i : String) : Int :=
  ((db.lookup_item i).map Item.cost).getD 0

/-- The sum, over the weapon-kind and wargear-kind items of an item
list, of catalog cost times quantity. -/
def Database.wargear_sum (db : Database) : List (String × Int) → Int
  | [] => 0
  | p :: rest =>
    (if acontains db.weapons p.1 || acontains db.wargear p.1
     then db.item_cost p.1 * p.2 else 0) + db.wargear_sum rest

theorem wargear_cost_loop_eq (db : Database) (l : List (String × Int)) (total : Int) :
    db.wargear_cost_loop l total = some (total + db.wargear_sum l) := by
  induction l generalizing total with
  | nil => simp [Database.wargear_cost_loop, Database.wargear_sum]
  | cons p rest ih =>
    by_cases hp : (acontains db.weapons p.1 || acontains db.wargear p.1) = true
    · obtain ⟨it, hit⟩ := lookup_item_isSome db p.1 (by
        rcases Bool.or_eq_true_iff.mp hp with h | h <;> simp [h])
      simp only [Database.wargear_cost_loop, Database.wargear_sum, hp, if_true, hit, ih]
      have hcost : db.item_cost p.1 = it.cost := by
        simp [Database.item_cost, hit]
      rw [hcost]
      congr 1
      ring
    · have hp' : (acontains db.weapons p.1 || acontains db.wargear p.1) = false := by
        simpa using hp
      simp only [Database.wargear_cost_loop, Database.wargear_sum, hp', ih]
      simp

/-- C2: a squad's points cost is its models cost plus its wargear cost;
the wargear cost is 0 whenever the squad's wargear is included in its
model costs, and otherwise is the sum over the squad's weapon-kind and
wargear-kind items of catalog cost times quantity. -/
theorem squad_cost_identities (db : Database) (s : Squad) :
    (∀ m w, db.squad_models_cost s = some m → db.squad_wargear_cost s = some w →
        db.squad_points_cost s = some (m + w))
  ∧ (db.squad_wargear_included s = some true → db.squad_wargear_cost s = some 0)
  ∧ (db.squad_wargear_included s = some false →
        db.squad_wargear_cost s = some (db.wargear_sum s.items)) := by
  refine ⟨?_, ?_, ?_⟩
  · intro m w hm hw
    simp [Database.squad_points_cost, hm, hw]
  · intro h
    simp [Database.squad_wargear_cost, h]
  · intro h
    simp only [Database.squad_wargear_cost, h]
    simpa using wargear_cost_loop_eq db s.items 0

/-- Witness for C2 at the spec's concrete scenario (ten 13-point marines
and one 9-point flamer, wargear not included; and a squad whose model
does include its wargear). -/
theorem squad_cost_identities_witness :
    db2.squad_points_cost tacSquad = some 139
  ∧ db2.squad_wargear_cost tacSquad = some 9
  ∧ dbIW.squad_wargear_cost iwSquad = some 0 := by
  refine ⟨?_, ?_, ?_⟩
  · exact (squad_cost_identities db2 tacSquad).1 130 9 rfl rfl
  · exact ((squad_cost_identities db2 tacSquad).2.2 rfl).trans (by decide)
  · exact (squad_cost_identities dbIW iwSquad).2.1 rfl

/-! ## C6 -/

/-- C6: the claim says the first row of a model's displayed variant
chain shows the real cost and the squad quantity, and every later
variant row shows placeholders in both cells.  The cost cells do behave
that way, but the Qty cell test is `first or squad is None`, so the
first row shows the placeholder and each variant row shows the real
quantity — the opposite of the claim (and of the convention the
weapons-table writer implements). -/
theorem write_models_rows_qty_inverted :
    (db6.write_models_rows (some robotSquad) "Robot").map
      (fun rows => rows.map (fun r => (alookup r "Cost", alookup r "Qty")))
    = some [(some "80", some "-"), (some "-", some "2")] := by
  exact rfl

/-! ## C3 -/

/-- Appending a mode only changes the mode list. -/
theorem appendMode_modes (w mode : Weapon) :
    (w.appendMode mode).modes = w.modes ++ [mode] := by
  cases w
  rfl

/-- C3 fails as stated: a plainly-named weapon row is inserted under its
own name, but a later `<base> [<mode>]` row with that base appends to
the *real* record's mode list, after which `get_modes` no longer returns
the record itself.  Reading `"Gun"` then `"Gun [Rapid]"`, the entry
under `"Gun"` (whose name does not match the pattern) has
`get_modes` = the single mode record, not itself. -/
theorem weapon_get_modes_counterexample :
    weaponSplit "Gun".toList = none
  ∧ ((buildWeapons [gunRow, gunRapidRow]).bind (fun t => alookup t "Gun")).map
      Weapon.name = some "Gun"
  ∧ ¬ (((buildWeapons [gunRow, gunRapidRow]).bind (fun t => alookup t "Gun")).map
        (fun g => g.get_modes.map Weapon.name)
      = ((buildWeapons [gunRow, gunRapidRow]).bind (fun t => alookup t "Gun")).map
        (fun g => [g].map Weapon.name)) := by
  refine ⟨rfl, rfl, by decide⟩

/-- C3 (amended): a row whose name matches `<base> [<mode>]` appends its
parsed weapon to the mode list of the table entry keyed by the trimmed
base — a placeholder base carrying this row's cost being created first
when that key is absent — and a row whose name does not match is
inserted under its own name with an empty mode list, so that
`get_modes` of that record returns exactly the record itself at the
moment of insertion (a later matching row sharing the base can extend
its mode list). -/
theorem weapon_parse_spec (row : WeaponRow) (table : List (String × Weapon))
    (cost : Int) (hc : pyToInt row.Cost = some cost) :
    (∀ b, weaponSplit row.Name.toList = some b →
      Weapon.parse row table
        = some (amodify
            (if acontains table (pyStrip (String.mk b)) then table
             else ains table (pyStrip (String.mk b))
               (Weapon.init (pyStrip (String.mk b)) cost))
            (pyStrip (String.mk b))
            (fun w => w.appendMode (Weapon.ofRow row cost)))
      ∧ (alookup (amodify
            (if acontains table (pyStrip (String.mk b)) then table
             else ains table (pyStrip (String.mk b))
               (Weapon.init (pyStrip (String.mk b)) cost))
            (pyStrip (String.mk b))
            (fun w => w.appendMode (Weapon.ofRow row cost)))
            (pyStrip (String.mk b))).map Weapon.modes
          = some ((((alookup table (pyStrip (String.mk b))).map Weapon.modes).getD [])
              ++ [Weapon.ofRow row cost]))
  ∧ (weaponSplit row.Name.toList = none →
      Weapon.parse row table = some (ains table row.Name (Weapon.ofRow row cost))
      ∧ alookup (ains table row.Name (Weapon.ofRow row cost)) row.Name
          = some (Weapon.ofRow row cost)
      ∧ (Weapon.ofRow row cost).get_modes = [Weapon.ofRow row cost]) := by
  constructor
  · intro b hb
    have hb' : weaponSplit row.Name.data = some b := hb
    constructor
    · simp [Weapon.parse, hc, hb']
    · by_cases hk : acontains table (pyStrip (String.mk b)) = true
      · obtain ⟨w0, hw0⟩ := alookup_isSome_of_acontains table (pyStrip (String.mk b)) hk
        rw [if_pos hk, alookup_amodify_self, hw0]
        simp [appendMode_modes]
      · have hk' : acontains table (pyStrip (String.mk b)) = false := by simpa using hk
        have hnone : alookup table (pyStrip (String.mk b)) = none := by
          unfold acontains at hk'
          exact Option.not_isSome_iff_eq_none.mp (by simp [hk'])
        rw [if_neg hk, alookup_amodify_self, alookup_ains_self, hnone]
        simp [appendMode_modes]
        rfl
  · intro hb
    have hb' : weaponSplit row.Name.data = none := hb
    refine ⟨by simp [Weapon.parse, hc, hb'], alookup_ains_self _ _ _, ?_⟩
    rfl

/-- Witness for C3 at concrete rows: parsing `"Gun [Rapid]"` into an
empty table leaves a base `"Gun"` entry whose mode list is exactly the
parsed mode, and a plainly-named row's record resolves to itself. -/
theorem weapon_parse_spec_witness :
    ((Weapon.parse gunRapidRow []).bind (fun t => alookup t "Gun")).map Weapon.modes
      = some [Weapon.ofRow gunRapidRow 5]
  ∧ Weapon.parse gunRow [] = some [("Gun", Weapon.ofRow gunRow 3)]
  ∧ (Weapon.ofRow gunRow 3).get_modes = [Weapon.ofRow gunRow 3] := by
  have h1 := (weapon_parse_spec gunRapidRow [] 5 rfl).1 ("Gun ".toList) rfl
  have h2 := (weapon_parse_spec gunRow [] 3 rfl).2 rfl
  refine ⟨?_, h2.1, h2.2.2⟩
  rw [h1.1]
  simpa using h1.2

/-! ## C4 -/

/-- Appending a damage variant only changes the variant list. -/
theorem appendVariant_damage_variants (m v : Model) (n : Nat) :
    (m.appendVariant n v).damage_variants = m.damage_variants ++ [(n, v)] := by
  cases m
  rfl

/-- C4: a model row whose name matches `<base> (<N>W)` is fatal when the
trimmed base is not already in the table; when the base is present, the
pair `(N, record)` is appended at the end of the base's damage-variant
list (hence variants accumulate in source-row order), and every other
key of the table — in particular the variant's own name, which is never
inserted — is left untouched. -/
theorem model_parse_variant_spec (row : ModelRow) (table : List (String × Model))
    (cost : Int) (iw : Bool) (b : List Char) (n : Nat)
    (hc : pyToInt row.Cost = some cost)
    (hiw : modelIncludesWargear row.IncludesWargear = some iw)
    (hm : modelSplit row.Name.toList = some (b, n)) :
    (acontains table (pyStrip (String.mk b)) = false → Model.parse row table = none)
  ∧ (∀ m0, alookup table (pyStrip (String.mk b)) = some m0 →
      Model.parse row table
        = some (amodify table (pyStrip (String.mk b))
            (fun m => m.appendVariant n (Model.ofRow row cost iw)))
      ∧ (alookup (amodify table (pyStrip (String.mk b))
            (fun m => m.appendVariant n (Model.ofRow row cost iw)))
            (pyStrip (String.mk b))).map Model.damage_variants
          = some (m0.damage_variants ++ [(n, Model.ofRow row cost iw)])
      ∧ ∀ k, k ≠ pyStrip (String.mk b) →
          alookup (amodify table (pyStrip (String.mk b))
            (fun m => m.appendVariant n (Model.ofRow row cost iw))) k
            = alookup table k) := by
  have hm' : modelSplit row.Name.data = some (b, n) := hm
  constructor
  · intro habs
    simp [Model.parse, hc, hiw, hm', habs]
  · intro m0 hm0
    have hk : acontains table (pyStrip (String.mk b)) = true := by
      simp [acontains, hm0]
    refine ⟨by simp [Model.parse, hc, hiw, hm', hk], ?_, ?_⟩
    · simp [alookup_amodify_self, hm0, appendVariant_damage_variants]
    · intro k hkne
      exact alookup_amodify_ne table (pyStrip (String.mk b)) k _ hkne

/-- Witness for C4 at the spec's Robot scenario: the variant row is
fatal on an empty table, and on a table holding the base it appends
`(5, variant)` to the base while a lookup of `"Robot (5W)"` still
fails. -/
theorem model_parse_variant_spec_witness :
    Model.parse robot5WRow [] = none
  ∧ (Model.parse robot5WRow robotTable).bind
      (fun t => (alookup t "Robot").map Model.damage_variants)
      = some [(5, Model.ofRow robot5WRow 40 false)]
  ∧ (Model.parse robot5WRow robotTable).bind (fun t => alookup t "Robot (5W)")
      = none := by
  have h0 := model_parse_variant_spec robot5WRow [] 40 false ("Robot ".toList) 5 rfl rfl rfl
  have h1 := model_parse_variant_spec robot5WRow robotTable 40 false
    ("Robot ".toList) 5 rfl rfl rfl
  have hbase : alookup robotTable (pyStrip (String.mk "Robot ".toList))
      = some (Model.ofRow robotRow 80 false) := by rfl
  have h2 := h1.2 (Model.ofRow robotRow 80 false) hbase
  refine ⟨h0.1 rfl, ?_, ?_⟩
  · rw [h2.1]
    have := h2.2.1
    simpa using this
  · rw [h2.1]
    have hne : "Robot (5W)" ≠ pyStrip (String.mk "Robot ".toList) := by decide
    have := h2.2.2 "Robot (5W)" hne
    simpa using this

/-! ## C5 -/

/-- An item whose lookup fails makes the ability loop fatal. -/
theorem abilities_loop_none_of_unknown (db : Database) (p : String × Int)
    (hunk : db.lookup_item p.1 = none) :
    ∀ (l : List (String × Int)) (acc : List String), p ∈ l →
      db.abilities_loop l acc = none := by
  intro l
  induction l with
  | nil => intro acc h; cases h
  | cons q rest ih =>
    intro acc hmem
    rcases List.mem_cons.mp hmem with heq | htail
    · subst heq
      simp [Database.abilities_loop, hunk]
    · cases hq : db.lookup_item q.1 with
      | none => simp [Database.abilities_loop, hq]
      | some it =>
        simp only [Database.abilities_loop, hq]
        exact ih _ htail

/-- An unknown item is in none of the three per-kind tables, so the
classification loop never adds it to any of its three lists. -/
theorem get_squad_items_loop_skips_unknown (db : Database) (i : String)
    (hunk : db.lookup_item i = none) :
    ∀ (l : List (String × Int)) (ws ms gs : List String) (num : Int),
      ws.contains i = false → ms.contains i = false → gs.contains i = false →
      (db.get_squad_items_loop l ws ms gs num).1.contains i = false
    ∧ (db.get_squad_items_loop l ws ms gs num).2.1.contains i = false
    ∧ (db.get_squad_items_loop l ws ms gs num).2.2.1.contains i = false := by
  obtain ⟨hwa, hma, hga⟩ := acontains_false_of_lookup_item_none db i hunk
  intro l
  induction l with
  | nil =>
    intro ws ms gs num hw hm hg
    exact ⟨hw, hm, hg⟩
  | cons p rest ih =>
    intro ws ms gs num hw hm hg
    have hne : ∀ (t : List String), t.contains i = false →
        acontains db.weapons p.1 = true ∨ acontains db.models p.1 = true
          ∨ acontains db.wargear p.1 = true →
        (t ++ [p.1]).contains i = false := by
      intro t ht hp
      have hpi : p.1 ≠ i := by
        intro he
        rcases hp with hp | hp | hp <;> rw [he] at hp
        · rw [hwa] at hp; cases hp
        · rw [hma] at hp; cases hp
        · rw [hga] at hp; cases hp
      have : ¬ i ∈ t ++ [p.1] := by
        intro hmem
        rcases List.mem_append.mp hmem with h1 | h1
        · have := List.elem_eq_true_of_mem h1
          rw [List.contains] at ht
          rw [ht] at this
          cases this
        · exact hpi (List.mem_singleton.mp h1).symm
      rcases hcontains : (t ++ [p.1]).contains i with _ | _
      · rfl
      · exact absurd (List.mem_of_elem_eq_true hcontains) this
    by_cases h1 : (acontains db.weapons p.1 && !(ws.contains p.1)) = true
    · have hwp : acontains db.weapons p.1 = true := (Bool.and_eq_true _ _ ▸ h1).1
      simp only [Database.get_squad_items_loop, h1, if_true]
      exact ih (ws ++ [p.1]) ms gs num (hne ws hw (Or.inl hwp)) hm hg
    · by_cases h2 : (acontains db.models p.1 && !(ms.contains p.1)) = true
      · have hmp : acontains db.models p.1 = true := (Bool.and_eq_true _ _ ▸ h2).1
        simp only [Database.get_squad_items_loop, h1, h2, if_true, if_false]
        exact ih ws (ms ++ [p.1]) gs (num + p.2) hw (hne ms hm (Or.inr (Or.inl hmp))) hg
      · by_cases h3 : (acontains db.wargear p.1 && !(gs.contains p.1)) = true
        · have hgp : acontains db.wargear p.1 = true := (Bool.and_eq_true _ _ ▸ h3).1
          simp only [Database.get_squad_items_loop, h1, h2, h3, if_true, if_false]
          exact ih ws ms (gs ++ [p.1]) num hw hm (hne gs hg (Or.inr (Or.inr hgp)))
        · simp only [Database.get_squad_items_loop, h1, h2, h3, if_false]
          exact ih ws ms gs num hw hm hg

/-- C5 fails as stated: a squad whose only item is unknown to all three
tables is classified to three empty lists and costed to 0 with no error
— the unknown item is silently skipped by `get_squad_items` and by the
cost computation, and only the ability aggregation is fatal. -/
theorem unknown_item_counterexample :
    db5.lookup_item "Mystery" = none
  ∧ db5.get_squad_items mysterySquad = ([], [], [], 0)
  ∧ db5.squad_points_cost mysterySquad = some 0 := by
  exact ⟨rfl, rfl, rfl⟩

/-- C5 (amended): an item name absent from all three tables is fatal for
ability aggregation (`list_squad_abilities` resolves every item through
`lookup_item`), while `get_squad_items` and the cost computation skip
the unknown item: it is classified into none of the three lists and
contributes no cost. -/
theorem unknown_item_behaviour (db : Database) (s : Squad) (p : String × Int)
    (hmem : p ∈ s.items) (hunk : db.lookup_item p.1 = none) :
    db.list_squad_abilities s = none
  ∧ (db.get_squad_items s).1.contains p.1 = false
  ∧ (db.get_squad_items s).2.1.contains p.1 = false
  ∧ (db.get_squad_items s).2.2.1.contains p.1 = false := by
  have hloop := abilities_loop_none_of_unknown db p hunk s.items [] hmem
  have hitems := get_squad_items_loop_skips_unknown db p.1 hunk s.items
    [] [] [] 0 rfl rfl rfl
  exact ⟨by simp [Database.list_squad_abilities, hloop],
    hitems.1, hitems.2.1, hitems.2.2⟩

/-- Witness for C5 (amended) at the concrete unknown item. -/
theorem unknown_item_behaviour_witness :
    db5.list_squad_abilities mysterySquad = none
  ∧ (db5.get_squad_items mysterySquad).1.contains "Mystery" = false
  ∧ (db5.get_squad_items mysterySquad).2.1.contains "Mystery" = false
  ∧ (db5.get_squad_items mysterySquad).2.2.1.contains "Mystery" = false := by
  exact unknown_item_behaviour db5 mysterySquad ("Mystery", 1) (by decide) rfl

/-! ## C7 -/

/-- Reduction of `lookup_buff` outside the Kill Team ruleset. -/
theorem lookup_buff_not_kt (db : Database) (s : Squad) (stat_name : String)
    (item : Weapon) (hk : db.is_kill_team = false) :
    db.lookup_buff (some s) stat_name item = some none := by
  unfold Database.lookup_buff
  simp [hk]

/-- Reduction of `lookup_buff` under the Kill Team ruleset when the
squad's ability aggregation succeeds. -/
theorem lookup_buff_kt (db : Database) (s : Squad) (stat_name : String)
    (item : Weapon) (abilities : List String) (hk : db.is_kill_team = true)
    (hab : db.list_squad_abilities s = some abilities) :
    db.lookup_buff (some s) stat_name item
      = (if stat_name == "Range"
            && (item.name == "Frag Grenade" || item.name == "Krak Grenade") then
          if abilities.contains "Auxiliary Grenade Launcher" then some (some 30)
          else some none
        else some none) := by
  unfold Database.lookup_buff
  simp [hk, hab]

/-- C7: given a squad whose ability aggregation succeeds, `lookup_buff`
returns the override 30 exactly when the ruleset is Kill Team, the stat
is Range, the item is a Frag or Krak Grenade and the aggregated
abilities contain "Auxiliary Grenade Launcher"; in every other case it
returns the absent result (so the displayed value stays unbuffed), and
with no squad it returns the absent result. -/
theorem lookup_buff_spec (db : Database) (s : Squad) (stat_name : String)
    (item : Weapon) (abilities : List String)
    (hab : db.list_squad_abilities s = some abilities) :
    (db.lookup_buff (some s) stat_name item = some (some 30)
      ↔ db.is_kill_team = true ∧ stat_name = "Range"
        ∧ (item.name = "Frag Grenade" ∨ item.name = "Krak Grenade")
        ∧ abilities.contains "Auxiliary Grenade Launcher" = true)
  ∧ (db.lookup_buff (some s) stat_name item = some (some 30)
      ∨ db.lookup_buff (some s) stat_name item = some none)
  ∧ db.lookup_buff none stat_name item = some none := by
  refine ⟨?_, ?_, rfl⟩
  · cases hk : db.is_kill_team with
    | false =>
      rw [lookup_buff_not_kt db s stat_name item hk]
      constructor
      · intro h
        exact absurd h (by decide)
      · rintro ⟨h, -⟩
        exact absurd h (by decide)
    | true =>
      rw [lookup_buff_kt db s stat_name item abilities hk hab]
      constructor
      · intro h
        by_cases hc : (stat_name == "Range"
            && (item.name == "Frag Grenade" || item.name == "Krak Grenade")) = true
        · by_cases ha : abilities.contains "Auxiliary Grenade Launcher" = true
          · have hc' := Bool.and_eq_true _ _ ▸ hc
            refine ⟨rfl, eq_of_beq hc'.1, ?_, ha⟩
            rcases Bool.or_eq_true _ _ ▸ hc'.2 with h2 | h2
            · exact Or.inl (eq_of_beq h2)
            · exact Or.inr (eq_of_beq h2)
          · rw [if_pos hc, if_neg ha] at h
            exact absurd h (by decide)
        · rw [if_neg hc] at h
          exact absurd h (by decide)
      · rintro ⟨-, h1, h2, h3⟩
        have hc : (stat_name == "Range"
            && (item.name == "Frag Grenade" || item.name == "Krak Grenade")) = true := by
          rw [h1]
          rcases h2 with h2 | h2 <;> rw [h2] <;> decide
        rw [if_pos hc, if_pos h3]
  · cases hk : db.is_kill_team with
    | false =>
      rw [lookup_buff_not_kt db s stat_name item hk]
      exact Or.inr rfl
    | true =>
      rw [lookup_buff_kt db s stat_name item abilities hk hab]
      by_cases hc : (stat_name == "Range"
          && (item.name == "Frag Grenade" || item.name == "Krak Grenade")) = true
      · by_cases ha : abilities.contains "Auxiliary Grenade Launcher" = true
        · rw [if_pos hc, if_pos ha]
          exact Or.inl rfl
        · rw [if_pos hc, if_neg ha]
          exact Or.inr rfl
      · rw [if_neg hc]
        exact Or.inr rfl

/-- Witness for C7: the Kill Team squad whose model grants the launcher
ability gets Range 30 on the Frag Grenade; a different stat, and the
no-squad call, stay unbuffed. -/
theorem lookup_buff_spec_witness :
    db7.lookup_buff (some vetSquad) "Range" fragW = some (some 30)
  ∧ db7.lookup_buff (some vetSquad) "D" fragW = some none
  ∧ db7.lookup_buff none "Range" fragW = some none := by
  have h1 := lookup_buff_spec db7 vetSquad "Range" fragW
    ["Auxiliary Grenade Launcher"] rfl
  have h2 := lookup_buff_spec db7 vetSquad "D" fragW
    ["Auxiliary Grenade Launcher"] rfl
  refine ⟨h1.1.mpr ⟨rfl, rfl, Or.inl rfl, rfl⟩, ?_, h2.2.2⟩
  rcases h2.2.1 with h | h
  · exfalso
    have := h2.1.mp h
    exact absurd this.2.1 (by decide)
  · exact h

/-! ## C8 -/

/-- The looked-up records of a squad's items, in order (`none` as soon
as any lookup fails). -/
def Database.squad_item_records (db : Database) :
    List (String × Int) → Option (List Item)
  | [] => some []
  | p :: rest =>
    match db.lookup_item p.1, db.squad_item_records rest with
    | some it, some its => some (it :: its)
    | _, _ => none

/-- First-seen-order deduplicating append of one ability list. -/
def dedupAppend : List String → List String → List String
  | acc, [] => acc
  | acc, a :: rest => dedupAppend (abilityStep acc a) rest

/-- First-seen-order deduplicated union of several ability lists. -/
def dedupUnion (ls : List (List String)) : List String :=
  ls.foldl dedupAppend []

theorem foldl_abilityStep_eq_dedupAppend (l acc : List String) :
    l.foldl abilityStep acc = dedupAppend acc l := by
  induction l generalizing acc with
  | nil => rfl
  | cons a rest ih => simp [dedupAppend, ih]

theorem abilities_loop_eq_records (db : Database) :
    ∀ (l : List (String × Int)) (items : List Item) (acc : List String),
      db.squad_item_records l = some items →
      db.abilities_loop l acc
        = some (items.foldl (fun a it => dedupAppend a it.abilities) acc) := by
  intro l
  induction l with
  | nil =>
    intro items acc h
    simp only [Database.squad_item_records, Option.some.injEq] at h
    subst h
    rfl
  | cons p rest ih =>
    intro items acc h
    cases hp : db.lookup_item p.1 with
    | none => simp [Database.squad_item_records, hp] at h
    | some it =>
      cases hr : db.squad_item_records rest with
      | none => simp [Database.squad_item_records, hp, hr] at h
      | some its =>
        have hitems : items = it :: its := by
          simp [Database.squad_item_records, hp, hr] at h
          exact h.symm
        subst hitems
        simp only [Database.abilities_loop, hp, List.foldl_cons]
        rw [ih its _ hr, foldl_abilityStep_eq_dedupAppend]

/-- C8: for a Kill Team squad declaring a specialist (and whose item
lookups succeed), the aggregated abilities are the first-seen-order
deduplicated union of the items' ability lists followed by one
synthesized string per level from 1 up to the derived level, and the
derived level counts how many of the breakpoints 3, 7, 12 the
experience score (defaulting to 0) has reached. -/
theorem specialist_abilities_spec (db : Database) (s : Squad) (spec_name : String)
    (items : List Item)
    (hk : db.is_kill_team = true)
    (hs : s.specialist = some spec_name)
    (hitems : db.squad_item_records s.items = some items) :
    db.list_squad_abilities s
      = some (dedupUnion (items.map Item.abilities)
          ++ (List.range (db.get_squad_level s).toNat).map
              (fun i => spec_name ++ " (" ++ toString (i + 1) ++ ")"))
  ∧ db.get_squad_level s
      = ((([3, 7, 12] : List Int).filter
            (fun b => decide (b ≤ s.experience.getD 0))).length : Int) := by
  constructor
  · unfold Database.list_squad_abilities
    rw [abilities_loop_eq_records db s.items items [] hitems, hs, hk]
    simp only [if_true]
    congr 2
    unfold dedupUnion
    rw [List.foldl_map]
  · unfold Database.get_squad_level
    by_cases h12 : (12:Int) ≤ s.experience.getD 0
    · have h7 : (7:Int) ≤ s.experience.getD 0 := by omega
      have h3 : (3:Int) ≤ s.experience.getD 0 := by omega
      simp [h12, h7, h3, List.filter]
    · by_cases h7 : (7:Int) ≤ s.experience.getD 0
      · have h3 : (3:Int) ≤ s.experience.getD 0 := by omega
        simp [h12, h7, h3, List.filter]
      · by_cases h3 : (3:Int) ≤ s.experience.getD 0
        · simp [h12, h7, h3, List.filter]
        · simp [h12, h7, h3, List.filter]

/-- Witness for C8 at the spec's scenario: specialist "Veteran" with
experience 8 yields level 2 and exactly the abilities "Veteran (1)" and
"Veteran (2)" appended (no "Veteran (3)"). -/
theorem specialist_abilities_spec_witness :
    db7.list_squad_abilities vetSpecialistSquad
      = some ["Auxiliary Grenade Launcher", "Veteran (1)", "Veteran (2)"]
  ∧ db7.get_squad_level vetSpecialistSquad = 2 := by
  have h := specialist_abilities_spec db7 vetSpecialistSquad "Veteran"
    [Item.model (Model.ofRow vetRow 10 false)] rfl rfl rfl
  exact ⟨h.1.trans (by decide), h.2.trans (by decide)⟩

/-! ## C9 -/

/-- The command-point values of the formations referenced by a list of
detachments, in order (`none` as soon as a formation is unknown). -/
def Database.detachment_cps (db : Database) : List Detachment → Option (List Int)
  | [] => some []
  | d :: rest =>
    match db.lookup_formation d.«Type», db.detachment_cps rest with
    | some f, some cps => some (f.cp :: cps)
    | _, _ => none

theorem cp_loop_eq (db : Database) :
    ∀ (l : List Detachment) (cps : List Int) (total : Int),
      db.detachment_cps l = some cps →
      db.cp_loop l total = some (total + cps.sum) := by
  intro l
  induction l with
  | nil =>
    intro cps total h
    simp only [Database.detachment_cps, Option.some.injEq] at h
    subst h
    simp [Database.cp_loop]
  | cons d rest ih =>
    intro cps total h
    cases hf : db.lookup_formation d.«Type» with
    | none => simp [Database.detachment_cps, hf] at h
    | some f =>
      cases hr : db.detachment_cps rest with
      | none => simp [Database.detachment_cps, hf, hr] at h
      | some cps' =>
        have hcps : cps = f.cp :: cps' := by
          simp [Database.detachment_cps, hf, hr] at h
          exact h.symm
        subst hcps
        simp only [Database.cp_loop, hf]
        rw [ih cps' _ hr]
        congr 1
        simp [List.sum_cons]
        ring

/-- C9: the army command-point total is the fixed battle-forged base of
3 plus the sum of the command-point values of the formations looked up
by each detachment's formation type. -/
theorem army_cp_spec (db : Database) (army : Army) (cps : List Int)
    (h : db.detachment_cps army.detachments = some cps) :
    db.army_cp_total army = some (3 + cps.sum) :=
  cp_loop_eq db army.detachments cps 3 h

/-- Witness for C9: a Battalion (5 CP) and a Patrol (0 CP) give 8. -/
theorem army_cp_spec_witness : db9.army_cp_total army9 = some 8 := by
  exact (army_cp_spec db9 army9 [5, 0] rfl).trans (by decide)

/-! ## C10 -/

theorem mem_foldl_abilityStep (l : List String) (acc : List String) (a : String)
    (h : a ∈ acc ∨ a ∈ l) : a ∈ l.foldl abilityStep acc := by
  induction l generalizing acc with
  | nil => simpa using h
  | cons b rest ih =>
    simp only [List.foldl_cons]
    apply ih
    rcases h with h | h
    · left
      unfold abilityStep
      split
      · exact h
      · exact List.mem_append_left _ h
    · rcases List.mem_cons.mp h with heq | htail
      · subst heq
        left
        unfold abilityStep
        split
        · exact List.mem_of_elem_eq_true (by assumption)
        · exact List.mem_append_right _ (List.mem_singleton.mpr rfl)
      · right
        exact htail

/-- Everything put into the accumulator survives the ability loop, and
each successfully looked-up item's abilities enter it. -/
theorem mem_abilities_loop (db : Database) :
    ∀ (l : List (String × Int)) (acc res : List String) (a : String),
      db.abilities_loop l acc = some res →
      (a ∈ acc → a ∈ res)
    ∧ (∀ p ∈ l, ∀ it, db.lookup_item p.1 = some it → a ∈ it.abilities → a ∈ res) := by
  intro l
  induction l with
  | nil =>
    intro acc res a hres
    simp only [Database.abilities_loop, Option.some.injEq] at hres
    subst hres
    exact ⟨fun h => h, fun p hp => absurd hp (List.not_mem_nil p)⟩
  | cons q rest ih =>
    intro acc res a hres
    cases hq : db.lookup_item q.1 with
    | none => simp [Database.abilities_loop, hq] at hres
    | some itq =>
      simp only [Database.abilities_loop, hq] at hres
      have ihres := ih (itq.abilities.foldl abilityStep acc) res a hres
      constructor
      · intro h
        exact ihres.1 (mem_foldl_abilityStep _ _ _ (Or.inl h))
      · intro p hp it hit hab
        rcases List.mem_cons.mp hp with heq | htail
        · subst heq
          rw [hq] at hit
          cases hit
          exact ihres.1 (mem_foldl_abilityStep _ _ _ (Or.inr hab))
        · exact ihres.2 p htail it hit hab

/-- C10: a model or wargear row whose Abilities column is empty parses
to the singleton ability list containing one empty string (empty
entries are only dropped for weapons), and the aggregated ability list
of any squad containing such an item — whenever aggregation succeeds —
contains that empty string. -/
theorem empty_ability_entry_spec :
    (∀ (row : ModelRow) (cost : Int) (iw : Bool), row.Abilities = "" →
      (Model.ofRow row cost iw).abilities = [""])
  ∧ (∀ (row : WargearRow) (cost : Int), row.Abilities = "" →
      (Wargear.ofRow row cost).abilities = [""])
  ∧ (∀ (db : Database) (s : Squad) (p : String × Int) (it : Item)
        (res : List String),
      p ∈ s.items → db.lookup_item p.1 = some it → "" ∈ it.abilities →
      db.list_squad_abilities s = some res → "" ∈ res) := by
  refine ⟨?_, ?_, ?_⟩
  · intro row cost iw h
    simp [Model.ofRow, Model.abilities, h]
    rfl
  · intro row cost h
    simp [Wargear.ofRow, h]
    rfl
  · intro db s p it res hmem hlk hab hres
    unfold Database.list_squad_abilities at hres
    cases hloop : db.abilities_loop s.items [] with
    | none => simp [hloop] at hres
    | some res0 =>
      have h0 : "" ∈ res0 :=
        (mem_abilities_loop db s.items [] res0 "" hloop).2 p hmem it hlk hab
      cases hsp : s.specialist with
      | none =>
        simp [hloop, hsp] at hres
        subst hres
        exact h0
      | some spec_name =>
        by_cases hk : db.is_kill_team = true
        · simp [hloop, hsp, hk] at hres
          subst hres
          exact List.mem_append_left _ h0
        · have hk' : db.is_kill_team = false := by simpa using hk
          simp [hloop, hsp, hk'] at hres
          subst hres
          exact h0

/-- Witness for C10: the model row with an empty Abilities column, a
wargear row likewise, and the squad holding that model. -/
theorem empty_ability_entry_spec_witness :
    (Model.ofRow emptyAbilityRow 5 false).abilities = [""]
  ∧ (Wargear.ofRow emptyGearRow 2).abilities = [""]
  ∧ "" ∈ ([""] : List String) := by
  refine ⟨empty_ability_entry_spec.1 emptyAbilityRow 5 false rfl,
    empty_ability_entry_spec.2.1 emptyGearRow 2 rfl,
    empty_ability_entry_spec.2.2 db10 gruntSquad ("Grunt", 1)
      (Item.model (Model.ofRow emptyAbilityRow 5 false)) [""]
      (by decide) rfl (by decide) rfl⟩

end Cogitator
